import Mathlib

/-
Shallow embedding of the subtree synchronization and publish orchestration
engine of this repository (scripts/sync-subtree.js and
turbo/generators/config.ts).

External commands are modelled by an oracle (`GitEnv` / `PubEnv`) giving the
outcome of each command the engine may run: `Except.ok out` is a successful
run with stdout `out`, `Except.error msg` a failing run whose JavaScript
error message is `msg`.  The engine functions return the ordered trace of
issued commands together with the console log lines, plus an
`Except String _` mirroring a thrown JavaScript `Error` versus a return
value.
-/

/-- Whitespace test backing the model of JavaScript `String.prototype.trim`. -/
def isJsSpace (c : Char) : Bool :=
  c = ' ' || c = '\n' || c = '\t' || c = '\r'

/-- Drop leading JavaScript whitespace from a character list. -/
def dropLeadingSpace : List Char → List Char
  | [] => []
  | c :: cs => if isJsSpace c then dropLeadingSpace cs else c :: cs

/-- Model of JavaScript `String.prototype.trim` (both ends). -/
def jsTrim (s : String) : String :=
  String.mk (dropLeadingSpace (dropLeadingSpace s.data.reverse).reverse)

/-- Truthiness of an `execCommand(..., throwOnError=false)` result: `null`
(modelled `none`) and the empty string are falsy. -/
def jsTruthy : Option String → Bool
  | none => false
  | some s => s ≠ ""

/-- Truthiness of `x && x.trim()` on an `execCommand` result, the pattern the
sync script uses to test for non-blank command output. -/
def jsTruthyTrim : Option String → Bool
  | none => false
  | some s => s ≠ "" && jsTrim s ≠ ""

/-- Does `pat` occur at the head of the character list? -/
def leadMatch : List Char → List Char → Bool
  | [], _ => true
  | _ :: _, [] => false
  | p :: ps, c :: cs => p = c && leadMatch ps cs

/-- Does `pat` occur anywhere in the character list? -/
def hasSubList (pat : List Char) : List Char → Bool
  | [] => leadMatch pat []
  | c :: cs => leadMatch pat (c :: cs) || hasSubList pat cs

/-- Model of JavaScript `String.prototype.includes`. -/
def jsIncludes (s pat : String) : Bool := hasSubList pat.data s.data

deriving instance DecidableEq for Except

/-- Project descriptor, one entry of the sync script's registry table. -/
structure Project where
  name : String
  path : String
  subtreeRemote : String
  syncScript : String
  description : String
deriving Repr, DecidableEq

/-- The external commands the sync engine can issue, abstracted to tags that
keep the arguments relevant to the claims (temporary branch names carry a
timestamp in the source and are not distinguished here). -/
inductive GitCmd where
  | statusRepo
  | statusPath (p : String)
  | subtreePull (p remote : String)
  | subtreeAdd (p remote : String)
  | mkdirBackup (p : String)
  | cpBackup (p : String)
  | gitRmCached (p : String)
  | rmRf (p : String)
  | commitPrep (name : String)
  | remoteGrep (name : String)
  | remoteAdd (name remote : String)
  | fetchTemp (name : String)
  | splitCheck (p : String)
  | logCheck (name : String)
  | branchDeleteTemp (name : String)
  | remoteRemoveTemp (name : String)
  | subtreePush (p remote : String)
  | forceSplit (p : String)
  | forcePush (remote : String)
  | forceBranchDelete
deriving Repr, DecidableEq

/-- Oracle for one `syncSubtree` invocation: the outcome of each external
command the script may run, in source order.  A field is consulted only if
the corresponding command is actually issued. -/
structure GitEnv where
  statusRepo : Except String String := Except.ok ""
  pullResult : Except String String := Except.ok ""
  addResult : Except String String := Except.ok ""
  addRetryResult : Except String String := Except.ok ""
  mkdirResult : Except String String := Except.ok ""
  cpResult : Except String String := Except.ok ""
  rmCachedResult : Except String String := Except.ok ""
  rmRfResult : Except String String := Except.ok ""
  commitPrepResult : Except String String := Except.ok ""
  statusPath : Except String String := Except.ok ""
  remoteGrep : Except String String := Except.ok ""
  remoteAddResult : Except String String := Except.ok ""
  fetchResult : Except String String := Except.ok ""
  splitResult : Except String String := Except.ok ""
  logOutput : Except String String := Except.ok ""
  cleanupBranchResult : Except String String := Except.ok ""
  cleanupRemoteResult : Except String String := Except.ok ""
  pushResult : Except String String := Except.ok ""
  forceSplitResult : Except String String := Except.ok ""
  forcePushResult : Except String String := Except.ok ""
  forceDeleteResult : Except String String := Except.ok ""

/-- Observable output of a run: the ordered command trace and console lines. -/
structure SyncOut where
  cmds : List GitCmd := []
  logs : List String := []
deriving Repr, DecidableEq

def SyncOut.cmd (o : SyncOut) (c : GitCmd) : SyncOut := { o with cmds := o.cmds ++ [c] }

def SyncOut.log (o : SyncOut) (s : String) : SyncOut := { o with logs := o.logs ++ [s] }

def SyncOut.append (a b : SyncOut) : SyncOut := ⟨a.cmds ++ b.cmds, a.logs ++ b.logs⟩

instance : Append SyncOut := ⟨SyncOut.append⟩


/-- The wrapped message of the `Error` thrown by `execCommand`. -/
def cmdFailed (txt msg : String) : String := "Command failed: " ++ txt ++ "\n" ++ msg

def pullCmdText (project : Project) : String :=
  "git subtree pull --prefix=" ++ project.path ++ " " ++ project.subtreeRemote ++ " main --squash"

def addCmdText (project : Project) : String :=
  "git subtree add --prefix=" ++ project.path ++ " " ++ project.subtreeRemote ++ " main --squash"

def pushCmdText (project : Project) : String :=
  "git subtree push --prefix=" ++ project.path ++ " " ++ project.subtreeRemote ++ " main"

/-- Run a command with `throwOnError = true`: trimmed output on success, a
wrapped error otherwise.  The command is recorded in the trace either way. -/
def runThrow (o : SyncOut) (c : GitCmd) (txt : String) (r : Except String String) :
    SyncOut × Except String String :=
  (o.cmd c, match r with
    | .ok out => .ok (jsTrim out)
    | .error msg => .error (cmdFailed txt msg))

/-- Run a command with `throwOnError = false`: trimmed output on success,
`none` (JavaScript `null`) otherwise. -/
def runNoThrow (o : SyncOut) (c : GitCmd) (r : Except String String) :
    SyncOut × Option String :=
  (o.cmd c, match r with
    | .ok out => some (jsTrim out)
    | .error _ => none)

/-- Options accepted by `syncSubtree` (command-line flags). -/
structure SyncOptions where
  pullOnly : Bool := false
  pushOnly : Bool := false
  force : Bool := false
deriving Repr, DecidableEq

/-- Model of `checkWorkingTreeClean`: repository-wide porcelain status, throw
when the trimmed output is non-blank. -/
def checkWorkingTreeClean (env : GitEnv) : SyncOut × Except String Unit :=
  let (o, status) := runNoThrow {} GitCmd.statusRepo env.statusRepo
  if jsTruthyTrim status then
    (o, .error ("Working tree is not clean. Please commit or stash your changes first:\n" ++
      status.getD ""))
  else (o, .ok ())

/-- The `try` block of `hasLocalChanges`: ensure the temporary remote,
fetch it, split the subtree to a temporary branch, list commits absent from
the remote main line, clean up.  Returned as the delta of commands it issues
(appended to the caller's output by `hasLocalChanges`). -/
def splitCheckCore (env : GitEnv) (project : Project) (remoteExists : Option String) :
    SyncOut × Except String Bool :=
  let (o, r1) :=
    if jsTruthy remoteExists then (({} : SyncOut), Except.ok "")
    else runThrow {} (GitCmd.remoteAdd project.name project.subtreeRemote)
      ("git remote add temp-" ++ project.name ++ " " ++ project.subtreeRemote)
      env.remoteAddResult
  match r1 with
  | .error e => (o, .error e)
  | .ok _ =>
    let (o, r2) := runThrow o (GitCmd.fetchTemp project.name)
      ("git fetch temp-" ++ project.name) env.fetchResult
    match r2 with
    | .error e => (o, .error e)
    | .ok _ =>
      let (o, r3) := runThrow o (GitCmd.splitCheck project.path)
        ("git subtree split --prefix=" ++ project.path) env.splitResult
      match r3 with
      | .error e => (o, .error e)
      | .ok _ =>
        let (o, commitsToPush) := runNoThrow o (GitCmd.logCheck project.name) env.logOutput
        let (o, _) := runNoThrow o (GitCmd.branchDeleteTemp project.name)
          env.cleanupBranchResult
        let (o, _) := runNoThrow o (GitCmd.remoteRemoveTemp project.name)
          env.cleanupRemoteResult
        (o, .ok (jsTruthyTrim commitsToPush))

/-- Model of `hasLocalChanges`: uncommitted changes under the project path, or
commits in a temporary subtree split absent from the remote main line.  Any
exception inside the detection block (`splitCheckCore`) is caught: cleanup
runs and the function reports `false`. -/
def hasLocalChanges (env : GitEnv) (project : Project) : SyncOut × Bool :=
  let (o, uncommittedChanges) := runNoThrow {} (GitCmd.statusPath project.path) env.statusPath
  if jsTruthyTrim uncommittedChanges then
    ((o.log ("📝 Uncommitted changes found in " ++ project.name ++ ":")).log
      (uncommittedChanges.getD ""), true)
  else
    let (o, remoteExists) := runNoThrow o (GitCmd.remoteGrep project.name) env.remoteGrep
    match splitCheckCore env project remoteExists with
    | (d, .ok b) => (o ++ d, b)
    | (d, .error _) =>
      let (o2, _) := runNoThrow (o ++ d) (GitCmd.branchDeleteTemp project.name)
        env.cleanupBranchResult
      let (o2, _) := runNoThrow o2 (GitCmd.remoteRemoveTemp project.name)
        env.cleanupRemoteResult
      (o2, false)

/-- The add-failure signature checked by the first-time initialization path:
the substring `prefix <single-quote>` of the git error output. -/
def prefixSig : String := "prefix \x27"

/-- Model of step 1 of `syncSubtree` (the squash pull and its error
handling: merge-conflict halt, first-time subtree add with the backup
degrade path, and the generic-failure branch). -/
def pullPhase (env : GitEnv) (projectName : String) (project : Project) (opts : SyncOptions) :
    SyncOut × Except String Unit :=
  if opts.pushOnly then ({}, .ok ()) else
  let o : SyncOut := SyncOut.log {}
    ("📥 Pulling latest changes from " ++ project.subtreeRemote ++ "...")
  let (o, pr) := runThrow o (GitCmd.subtreePull project.path project.subtreeRemote)
    (pullCmdText project) env.pullResult
  match pr with
  | .ok _ => (o.log ("✅ Successfully pulled latest changes for " ++ project.name), .ok ())
  | .error errorMessage =>
    if jsIncludes errorMessage "merge conflict" then
      let o := o.log ("⚠️  Merge conflicts detected in " ++ project.name)
      let o := o.log ("📝 Please resolve conflicts in " ++ project.path ++ "/ and then run:")
      let o := o.log ("   git add " ++ project.path ++ "/")
      let o := o.log ("   git commit -m \"resolve: merge conflicts in " ++ project.name ++ "\"")
      let o := o.log ("   npm run sync:" ++ projectName)
      (o, .error "Merge conflicts need to be resolved manually")
    else if jsIncludes errorMessage "was never added" then
      let o := o.log ("⚠️  Subtree for " ++ project.name ++ " was never added. Initializing now...")
      let (o, ar) := runThrow o (GitCmd.subtreeAdd project.path project.subtreeRemote)
        (addCmdText project) env.addResult
      match ar with
      | .ok _ =>
        ((o.log ("✅ Subtree initialized for " ++ project.name)).log
          ("✅ Pull completed for " ++ project.name), .ok ())
      | .error addErrMsg =>
        if jsIncludes addErrMsg prefixSig then
          let o := o.log ("🗄️  Backing up existing directory to " ++ project.path ++
            ".backup-TIMESTAMP ...")
          let (o, _) := runNoThrow o (GitCmd.mkdirBackup project.path) env.mkdirResult
          let (o, _) := runNoThrow o (GitCmd.cpBackup project.path) env.cpResult
          let o := o.log "🧹 Preparing prefix for subtree add..."
          let (o, _) := runNoThrow o (GitCmd.gitRmCached project.path) env.rmCachedResult
          let (o, _) := runNoThrow o (GitCmd.rmRf project.path) env.rmRfResult
          let (o, _) := runNoThrow o (GitCmd.commitPrep project.name) env.commitPrepResult
          let (o, rr) := runThrow o (GitCmd.subtreeAdd project.path project.subtreeRemote)
            (addCmdText project) env.addRetryResult
          match rr with
          | .ok _ =>
            ((o.log ("✅ Subtree initialized for " ++ project.name)).log
              ("✅ Pull completed for " ++ project.name), .ok ())
          | .error m => (o, .error m)
        else
          (o, .error ("Failed to initialize subtree for " ++ project.name ++ ": " ++ addErrMsg))
    else
      let o := o.log ("⚠️  Pull failed: " ++ errorMessage)
      if opts.force then (o, .ok ()) else (o, .error errorMessage)

/-- Model of step 3 of `syncSubtree` (the push, with the force-push fallback
on rejection: split to a disposable branch, force-push it, delete it). -/
def pushPhase (env : GitEnv) (projectName : String) (project : Project) (opts : SyncOptions) :
    SyncOut × Except String Bool :=
  let o : SyncOut := SyncOut.log {}
    ("📤 Pushing local changes to " ++ project.subtreeRemote ++ "...")
  let (o, pr) := runThrow o (GitCmd.subtreePush project.path project.subtreeRemote)
    (pushCmdText project) env.pushResult
  match pr with
  | .ok _ => (o.log ("✅ Successfully pushed " ++ project.name ++ " to subtree"), .ok true)
  | .error em =>
    let o := o.log ("⚠️  Normal push failed: " ++ em)
    if opts.force then
      let o := o.log "🔄 Force mode enabled, attempting force push..."
      let (o, fs) := runThrow o (GitCmd.forceSplit project.path)
        ("git subtree split --prefix=" ++ project.path ++ " --branch=TEMP") env.forceSplitResult
      match fs with
      | .error fe => (o, .error ("Force push failed for " ++ project.name ++ ": " ++ fe))
      | .ok _ =>
        let (o, fp) := runThrow o (GitCmd.forcePush project.subtreeRemote)
          ("git push " ++ project.subtreeRemote ++ " TEMP:main --force") env.forcePushResult
        match fp with
        | .error fe => (o, .error ("Force push failed for " ++ project.name ++ ": " ++ fe))
        | .ok _ =>
          let (o, fd) := runThrow o GitCmd.forceBranchDelete "git branch -D TEMP"
            env.forceDeleteResult
          match fd with
          | .error fe => (o, .error ("Force push failed for " ++ project.name ++ ": " ++ fe))
          | .ok _ =>
            ((o.log ("✅ Successfully force pushed " ++ project.name ++ " to subtree")).log
              "⚠️  WARNING: Force push overwrites remote history. Ensure this is intended.",
              .ok true)
    else
      let o := o.log "❌ Push failed. This usually means someone else has pushed changes."
      let o := o.log ("💡 Try running: npm run sync:" ++ projectName ++
        " (to pull their changes first)")
      let o := o.log "💡 Or use --force flag if you want to overwrite remote changes"
      (o, .error em)

/-- The working-tree guard as run by `syncSubtree`: skipped under `force`. -/
def guardStep (env : GitEnv) (opts : SyncOptions) : SyncOut × Except String Unit :=
  if opts.force then ({}, Except.ok ()) else checkWorkingTreeClean env

/-- Model of the body of `syncSubtree` after registry lookup: working-tree
guard, pull phase, pull-only early return, change detection, push phase. -/
def syncProject (env : GitEnv) (projectName : String) (project : Project) (opts : SyncOptions) :
    SyncOut × Except String Bool :=
  let o0 : SyncOut := SyncOut.log {} ("🔄 Syncing " ++ project.name ++ " subtree...")
  let (g, gr) := guardStep env opts
  let o1 := o0 ++ g
  match gr with
  | .error e => (o1, .error e)
  | .ok _ =>
    let (p, pr) := pullPhase env projectName project opts
    let o2 := o1 ++ p
    match pr with
    | .error e => (o2, .error e)
    | .ok _ =>
      if opts.pullOnly then
        (o2.log ("✅ Pull completed for " ++ project.name), .ok true)
      else
        let (c, hasChanges) := hasLocalChanges env project
        let o3 := o2 ++ c
        if !hasChanges then
          (o3.log ("✅ " ++ project.name ++ " is already up to date, no changes to push"), .ok true)
        else
          let (q, qr) := pushPhase env projectName project opts
          (o3 ++ q, qr)

/-- Registry lookup, `projects[projectName]`. -/
def lookupProject (registry : List (String × Project)) (projectName : String) : Option Project :=
  (registry.find? (fun pr => pr.1 == projectName)).map Prod.snd

/-- Model of `syncSubtree`: registry lookup then the sync state machine. -/
def syncSubtree (env : GitEnv) (registry : List (String × Project)) (projectName : String)
    (opts : SyncOptions) : SyncOut × Except String Bool :=
  match lookupProject registry projectName with
  | none => ({}, .error ("Unknown project: " ++ projectName))
  | some project => syncProject env projectName project opts

/-- Per-project outcome recorded by `syncAll`. -/
structure SyncResult where
  project : String
  success : Bool
  error : Option String
deriving Repr, DecidableEq

/-- What `syncAll` computes: the per-project outcomes in registry order, the
success/failure partition printed in the summary, and the returned boolean. -/
structure SyncReport where
  results : List SyncResult
  successful : List SyncResult
  failed : List SyncResult
  ok : Bool
deriving Repr, DecidableEq

/-- Model of `syncAll`: sync every registered project inside a per-project
`try`/`catch`, record one outcome each, and succeed iff nothing failed. -/
def syncAll (envOf : String → GitEnv) (registry : List (String × Project))
    (opts : SyncOptions) : SyncReport :=
  let results := registry.map (fun pr =>
    match syncSubtree (envOf pr.1) registry pr.1 opts with
    | (_, Except.ok success) => { project := pr.1, success := success, error := none }
    | (_, Except.error e) => { project := pr.1, success := false, error := some e })
  let successful := results.filter (fun r => r.success)
  let failed := results.filter (fun r => !r.success)
  { results := results, successful := successful, failed := failed, ok := failed.length == 0 }

/-- The static project registry table of scripts/sync-subtree.js (dynamic
template discovery reads the filesystem and is outside this model). -/
def projectsStatic : List (String × Project) :=
  [("mcpresso",
    ⟨"mcpresso", "packages/mcpresso", "git@github.com:granular-software/mcpresso.git",
      "sync:mcpresso", "TypeScript library for building MCP servers"⟩),
   ("mcpresso-oauth-server",
    ⟨"mcpresso-oauth-server", "packages/mcpresso-oauth-server",
      "git@github.com:granular-software/mcpresso-oauth-server.git",
      "sync:mcpresso-oauth-server", "OAuth 2.1 server for MCP authentication"⟩),
   ("mcpresso-openapi-generator",
    ⟨"mcpresso-openapi-generator", "packages/mcpresso-openapi-generator",
      "git@github.com:granular-software/mcpresso-openapi-generator.git",
      "sync:mcpresso-openapi-generator", "CLI tool to generate MCP servers from OpenAPI specs"⟩),
   ("template-docker-oauth-postgresql",
    ⟨"template-docker-oauth-postgresql", "apps/template-docker-oauth-postgresql",
      "git@github.com:granular-software/template-docker-oauth-postgresql.git",
      "sync:template-docker-oauth-postgresql", "Docker + OAuth2.1 + PostgreSQL template"⟩),
   ("template-express-oauth-sqlite",
    ⟨"template-express-oauth-sqlite", "apps/template-express-oauth-sqlite",
      "git@github.com:granular-software/template-express-oauth-sqlite.git",
      "sync:template-express-oauth-sqlite", "Express + OAuth2.1 + SQLite template"⟩),
   ("template-express-no-auth",
    ⟨"template-express-no-auth", "apps/template-express-no-auth",
      "git@github.com:granular-software/template-express-no-auth.git",
      "sync:template-express-no-auth", "Express + No Authentication template"⟩)]

/-- Model of `splitDotAux`: character-level splitter backing the model of
JavaScript `split(".")`. -/
def splitDotAux : List Char → List (List Char)
  | [] => [[]]
  | c :: cs =>
    match splitDotAux cs with
    | [] => [[]]
    | seg :: segs => if c = '.' then [] :: seg :: segs else (c :: seg) :: segs

/-- Model of JavaScript `currentVersion.split(".")`. -/
def splitDot (s : String) : List String := (splitDotAux s.data).map String.mk

/-- Decimal value of a digit list. -/
def digitsToNat (l : List Char) : Nat :=
  l.foldl (fun acc c => acc * 10 + (c.toNat - 48)) 0

/-- Model of JavaScript `Number(s)` restricted to the claim's domain of
non-negative decimal numerals; anything else is `none` (`NaN`). -/
def jsNumber (s : String) : Option Nat :=
  if !s.data.isEmpty && s.data.all Char.isDigit then some (digitsToNat s.data) else none

/-- Model of `bumpVersion` (turbo/generators/config.ts): split on dots, parse
the first three components as numbers, rebuild.  `none` models the `NaN`
outcomes and the thrown "Invalid bump type" error. -/
def bumpVersion (currentVersion : String) (bumpType : String) : Option String :=
  match (splitDot currentVersion).map jsNumber with
  | some major :: some minor :: some patch :: _ =>
    match bumpType with
    | "major" => some (Nat.repr (major + 1) ++ ".0.0")
    | "minor" => some (Nat.repr major ++ "." ++ Nat.repr (minor + 1) ++ ".0")
    | "patch" => some (Nat.repr major ++ "." ++ Nat.repr minor ++ "." ++ Nat.repr (patch + 1))
    | _ => none
  | _ => none

/-- The steps of the publish generator's action pipeline. -/
inductive PubCmd where
  | statusCheck
  | whoami
  | presyncPull
  | writeManifest (v : String)
  | gitAddAll
  | commitBump
  | pushMain
  | subtreePushOnly
  | npmBuild
  | npmPublish
deriving Repr, DecidableEq

/-- Oracle for one publish-pipeline run. -/
structure PubEnv where
  statusRepo : Except String String := Except.ok ""
  whoami : Except String String := Except.ok ""
  presync : Except String String := Except.ok ""
  gitAdd : Except String String := Except.ok ""
  commitCmd : Except String String := Except.ok ""
  pushMain : Except String String := Except.ok ""
  subtreePush : Except String String := Except.ok ""
  buildCmd : Except String String := Except.ok ""
  publishCmd : Except String String := Except.ok ""

/-- Mutable state the pipeline can touch: the project manifest's version. -/
structure PubState where
  manifestVersion : String
deriving Repr, DecidableEq

/-- JavaScript template-literal stringification of an `Error`. -/
def jsErrStr (m : String) : String := "Error: " ++ m

/-- Model of the publish generator's action list (turbo/generators/config.ts,
generator "publish"), run sequentially with abort on the first failing step:
1 prerequisites (clean tree, npm identity), 2 pull-only pre-sync, 3 version
write, 4 commit, 5 push main, 6 push-only subtree sync, 7 best-effort build
then npm publish. -/
def runPublish (env : PubEnv) (st : PubState) (project : Project) (newVersion : String) :
    List PubCmd × PubState × Except String Unit :=
  let cs : List PubCmd := [PubCmd.statusCheck]
  match env.statusRepo with
  | .error e =>
    (cs, st, .error ("❌ Prerequisites check failed: " ++
      jsErrStr (cmdFailed "git status --porcelain" e)))
  | .ok out =>
    let status := jsTrim out
    if 0 < status.length then
      (cs, st, .error ("❌ Prerequisites check failed: " ++ jsErrStr
        ("⚠️  You have uncommitted changes:\n" ++ status ++
          "\nPlease commit or stash them first.")))
    else
      let cs := cs ++ [PubCmd.whoami]
      match env.whoami with
      | .error e =>
        (cs, st, .error ("❌ Prerequisites check failed: " ++ jsErrStr (cmdFailed "npm whoami" e)))
      | .ok _ =>
        let cs := cs ++ [PubCmd.presyncPull]
        match env.presync with
        | .error e =>
          (cs, st, .error ("❌ Failed to pre-sync subtree (pull-only): " ++ jsErrStr
            (cmdFailed ("node scripts/sync-subtree.js " ++ project.name ++ " --pull-only") e)))
        | .ok _ =>
          let st := { st with manifestVersion := newVersion }
          let cs := cs ++ [PubCmd.writeManifest newVersion]
          let cs := cs ++ [PubCmd.gitAddAll]
          match env.gitAdd with
          | .error e =>
            (cs, st, .error ("❌ Failed to commit changes: " ++ jsErrStr
              (cmdFailed "git add -A" e)))
          | .ok _ =>
            let cs := cs ++ [PubCmd.commitBump]
            match env.commitCmd with
            | .error e =>
              (cs, st, .error ("❌ Failed to commit changes: " ++ jsErrStr
                (cmdFailed ("git commit -m chore " ++ project.name ++ " " ++ newVersion) e)))
            | .ok _ =>
              let cs := cs ++ [PubCmd.pushMain]
              match env.pushMain with
              | .error e =>
                (cs, st, .error ("❌ Failed to push to main repository: " ++ jsErrStr
                  (cmdFailed "git push origin main" e)))
              | .ok _ =>
                let cs := cs ++ [PubCmd.subtreePushOnly]
                match env.subtreePush with
                | .error e =>
                  (cs, st, .error ("❌ Failed to push to subtree: " ++ jsErrStr
                    (cmdFailed ("node scripts/sync-subtree.js " ++ project.name ++ " --push-only")
                      e) ++
                    "\n\n🚨 PUBLICATION STOPPED: Subtree push failed. Please fix the issue and try again."))
                | .ok _ =>
                  let cs := cs ++ [PubCmd.npmBuild, PubCmd.npmPublish]
                  match env.publishCmd with
                  | .error e =>
                    (cs, st, .error ("❌ Failed to publish to NPM: " ++ jsErrStr
                      (cmdFailed "npm publish --access public" e) ++
                      "\n\n🚨 PUBLICATION STOPPED: NPM publish failed. Please fix the issue and try again."))
                  | .ok _ => (cs, st, .ok ())

/-- Push-like commands: the normal subtree push and the force push. -/
def isPushCmd : GitCmd → Bool
  | GitCmd.subtreePush _ _ => true
  | GitCmd.forcePush _ => true
  | _ => false

/-- Ordering predicate: every push-like command in the trace is preceded by
the given pull command. -/
def PullBeforePush (pull : GitCmd) (l : List GitCmd) : Prop :=
  ∀ j c, l.get? j = some c → isPushCmd c = true → ∃ i, i < j ∧ l.get? i = some pull

/-- Concrete project used by the witness theorems (the first registry entry). -/
def projW : Project :=
  ⟨"mcpresso", "packages/mcpresso", "git@github.com:granular-software/mcpresso.git",
    "sync:mcpresso", "TypeScript library for building MCP servers"⟩

/-- Witness oracle: local changes present, remote push rejected. -/
def envC1W : GitEnv := { statusPath := Except.ok " M x", pushResult := Except.error "rejected" }

/-- Witness oracle: the squash pull fails with a merge-conflict signature. -/
def envC5W : GitEnv := { pullResult := Except.error "CONFLICT: merge conflict in src/index.ts" }

/-- Witness oracle: first-time sync where the plain subtree add fails because
the prefix already has content. -/
def envC6W : GitEnv :=
  { pullResult := Except.error "fatal: the subtree packages/mcpresso was never added",
    addResult := Except.error "prefix \x27packages/mcpresso\x27 already exists." }

@[simp] theorem SyncOut_append_cmds (a b : SyncOut) : (a ++ b).cmds = a.cmds ++ b.cmds := rfl

@[simp] theorem SyncOut_append_logs (a b : SyncOut) : (a ++ b).logs = a.logs ++ b.logs := rfl

@[simp] theorem SyncOut_log_cmds (o : SyncOut) (s : String) : (o.log s).cmds = o.cmds := rfl

@[simp] theorem SyncOut_log_logs (o : SyncOut) (s : String) : (o.log s).logs = o.logs ++ [s] := rfl

@[simp] theorem SyncOut_cmd_cmds (o : SyncOut) (c : GitCmd) : (o.cmd c).cmds = o.cmds ++ [c] := rfl

@[simp] theorem SyncOut_cmd_logs (o : SyncOut) (c : GitCmd) : (o.cmd c).logs = o.logs := rfl

theorem guardStep_no_push (env : GitEnv) (opts : SyncOptions) :
    ∀ c ∈ (guardStep env opts).1.cmds, isPushCmd c = false := by
  unfold guardStep checkWorkingTreeClean runNoThrow
  cases opts.force <;> cases env.statusRepo <;> simp [isPushCmd] <;> split <;>
    simp [isPushCmd]

theorem pullPhase_no_push (env : GitEnv) (pn : String) (project : Project) (opts : SyncOptions) :
    ∀ c ∈ (pullPhase env pn project opts).1.cmds, isPushCmd c = false := by
  unfold pullPhase runThrow runNoThrow
  cases opts.pushOnly
  · cases env.pullResult with
    | ok s => simp [isPushCmd]
    | error m =>
      simp only [Bool.false_eq_true, if_false]
      split
      · simp [isPushCmd]
      · split
        · cases env.addResult with
          | ok s2 => simp [isPushCmd]
          | error m2 =>
            simp only []
            split
            · cases env.addRetryResult <;> simp [isPushCmd]
            · simp [isPushCmd]
        · split <;> simp [isPushCmd]
  · simp

theorem splitCheckCore_no_push (env : GitEnv) (project : Project) (re : Option String) :
    ∀ c ∈ (splitCheckCore env project re).1.cmds, isPushCmd c = false := by
  unfold splitCheckCore runThrow runNoThrow
  cases hre : jsTruthy re <;>
    cases env.remoteAddResult <;> cases env.fetchResult <;> cases env.splitResult <;>
    simp [hre, isPushCmd]

theorem hasLocalChanges_no_push (env : GitEnv) (project : Project) :
    ∀ c ∈ (hasLocalChanges env project).1.cmds, isPushCmd c = false := by
  unfold hasLocalChanges runNoThrow
  cases env.statusPath with
  | ok s =>
    simp only []
    split
    · simp [isPushCmd]
    · rcases hs : splitCheckCore env project (match env.remoteGrep with
        | Except.ok out => some (jsTrim out)
        | Except.error _ => none) with ⟨d, rs⟩
      have hd := splitCheckCore_no_push env project (match env.remoteGrep with
        | Except.ok out => some (jsTrim out)
        | Except.error _ => none)
      rw [hs] at hd
      cases rs with
      | ok b =>
        simp [List.forall_mem_append, isPushCmd]
        exact hd
      | error e =>
        simp [List.forall_mem_append, isPushCmd]
        intro c hc
        rcases hc with hc | rfl | rfl
        · exact hd c hc
        · rfl
        · rfl
  | error m =>
    simp only []
    split
    · simp [isPushCmd]
    · rcases hs : splitCheckCore env project (match env.remoteGrep with
        | Except.ok out => some (jsTrim out)
        | Except.error _ => none) with ⟨d, rs⟩
      have hd := splitCheckCore_no_push env project (match env.remoteGrep with
        | Except.ok out => some (jsTrim out)
        | Except.error _ => none)
      rw [hs] at hd
      cases rs with
      | ok b =>
        simp [List.forall_mem_append, isPushCmd]
        exact hd
      | error e =>
        simp [List.forall_mem_append, isPushCmd]
        intro c hc
        rcases hc with hc | rfl | rfl
        · exact hd c hc
        · rfl
        · rfl

theorem pullPhase_head (env : GitEnv) (pn : String) (project : Project) (opts : SyncOptions)
    (h : opts.pushOnly = false) :
    (pullPhase env pn project opts).1.cmds.head? =
      some (GitCmd.subtreePull project.path project.subtreeRemote) := by
  unfold pullPhase runThrow runNoThrow
  rw [h]
  cases env.pullResult with
  | ok s => simp
  | error m =>
    simp only [Bool.false_eq_true, if_false]
    split
    · simp
    · split
      · cases env.addResult with
        | ok s2 => simp
        | error m2 =>
          simp only []
          split
          · cases env.addRetryResult <;> simp
          · simp
      · split <;> simp

theorem pullPhase_nonempty (env : GitEnv) (pn : String) (project : Project) (opts : SyncOptions)
    (h : opts.pushOnly = false) : 0 < (pullPhase env pn project opts).1.cmds.length := by
  have hh := pullPhase_head env pn project opts h
  cases hpc : (pullPhase env pn project opts).1.cmds with
  | nil => rw [hpc] at hh; simp at hh
  | cons x xs => simp

theorem pbp_of_no_push (pull : GitCmd) (l : List GitCmd)
    (h : ∀ c ∈ l, isPushCmd c = false) : PullBeforePush pull l := by
  intro j c hj hp
  have := h c (List.get?_mem hj)
  simp [this] at hp

theorem pbp_append (pull : GitCmd) (a b : List GitCmd)
    (hna : ∀ c ∈ a, isPushCmd c = false)
    (hpull : ∃ i, a.get? i = some pull) : PullBeforePush pull (a ++ b) := by
  intro j c hj hp
  obtain ⟨i, hi⟩ := hpull
  have hilt : i < a.length := by
    rcases List.get?_eq_some.mp hi with ⟨hlen, _⟩
    exact hlen
  have hj' : a.length ≤ j := by
    by_contra hcon
    push_neg at hcon
    rw [List.get?_append hcon] at hj
    have := hna c (List.get?_mem hj)
    simp [this] at hp
  exact ⟨i, lt_of_lt_of_le hilt hj', by rw [List.get?_append hilt]; exact hi⟩

theorem syncProject_push_reached (env : GitEnv) (pn : String) (project : Project)
    (opts : SyncOptions)
    (h : GitCmd.subtreePush project.path project.subtreeRemote ∈
      (syncProject env pn project opts).1.cmds) :
    ∃ pre, (∀ c ∈ pre, isPushCmd c = false) ∧
      (syncProject env pn project opts).1.cmds =
        pre ++ (pushPhase env pn project opts).1.cmds ∧
      (syncProject env pn project opts).2 = (pushPhase env pn project opts).2 := by
  rcases hg : guardStep env opts with ⟨g, gr⟩
  have hgn : ∀ c ∈ g.cmds, isPushCmd c = false := by
    have := guardStep_no_push env opts
    rw [hg] at this; exact this
  rcases hp : pullPhase env pn project opts with ⟨p, pr⟩
  have hpn : ∀ c ∈ p.cmds, isPushCmd c = false := by
    have := pullPhase_no_push env pn project opts
    rw [hp] at this; exact this
  rcases hc : hasLocalChanges env project with ⟨cc, ch⟩
  have hcn : ∀ c ∈ cc.cmds, isPushCmd c = false := by
    have := hasLocalChanges_no_push env project
    rw [hc] at this; exact this
  cases gr with
  | error e =>
    exfalso
    simp only [syncProject, hg] at h
    simp at h
    have := hgn _ h
    simp [isPushCmd] at this
  | ok u =>
    cases pr with
    | error e =>
      exfalso
      simp only [syncProject, hg, hp] at h
      simp at h
      rcases h with h | h
      · have := hgn _ h; simp [isPushCmd] at this
      · have := hpn _ h; simp [isPushCmd] at this
    | ok u2 =>
      cases hpo : opts.pullOnly with
      | true =>
        exfalso
        simp only [syncProject, hg, hp, hpo] at h
        simp at h
        rcases h with h | h
        · have := hgn _ h; simp [isPushCmd] at this
        · have := hpn _ h; simp [isPushCmd] at this
      | false =>
        cases ch with
        | false =>
          exfalso
          simp only [syncProject, hg, hp, hpo, hc] at h
          simp at h
          rcases h with h | h | h
          · have := hgn _ h; simp [isPushCmd] at this
          · have := hpn _ h; simp [isPushCmd] at this
          · have := hcn _ h; simp [isPushCmd] at this
        | true =>
          refine ⟨(g.cmds ++ p.cmds) ++ cc.cmds, ?_, ?_, ?_⟩
          · intro c hcm
            rcases List.mem_append.mp hcm with hcm | hcm
            · rcases List.mem_append.mp hcm with hcm | hcm
              · exact hgn c hcm
              · exact hpn c hcm
            · exact hcn c hcm
          · rcases hq : pushPhase env pn project opts with ⟨q, qr⟩
            simp only [syncProject, hg, hp, hpo, hc, hq]
            simp
          · rcases hq : pushPhase env pn project opts with ⟨q, qr⟩
            simp only [syncProject, hg, hp, hpo, hc, hq]
            simp

theorem pushPhase_reject_no_force (env : GitEnv) (pn : String) (project : Project)
    (m : String) (po : Bool) (hm : env.pushResult = Except.error m) :
    (pushPhase env pn project ⟨po, false, false⟩).1.cmds =
      [GitCmd.subtreePush project.path project.subtreeRemote] ∧
    (pushPhase env pn project ⟨po, false, false⟩).2 =
      Except.error (cmdFailed (pushCmdText project) m) := by
  unfold pushPhase runThrow
  rw [hm]
  simp

theorem pushPhase_reject_force (env : GitEnv) (pn : String) (project : Project)
    (m a b d : String) (po : Bool) (hm : env.pushResult = Except.error m)
    (ha : env.forceSplitResult = Except.ok a) (hb : env.forcePushResult = Except.ok b)
    (hd : env.forceDeleteResult = Except.ok d) :
    (pushPhase env pn project ⟨po, false, true⟩).1.cmds =
      [GitCmd.subtreePush project.path project.subtreeRemote,
       GitCmd.forceSplit project.path, GitCmd.forcePush project.subtreeRemote,
       GitCmd.forceBranchDelete] ∧
    (pushPhase env pn project ⟨po, false, true⟩).2 = Except.ok true := by
  unfold pushPhase runThrow
  rw [hm, ha, hb, hd]
  simp

theorem pushPhase_ok_true (env : GitEnv) (pn : String) (project : Project)
    (opts : SyncOptions) (b : Bool)
    (h : (pushPhase env pn project opts).2 = Except.ok b) : b = true := by
  unfold pushPhase runThrow at h
  cases hpr : env.pushResult <;> cases hof : opts.force <;>
    cases hfs : env.forceSplitResult <;> cases hfp : env.forcePushResult <;>
    cases hfd : env.forceDeleteResult <;> simp_all

theorem syncProject_ok_true (env : GitEnv) (pn : String) (project : Project)
    (opts : SyncOptions) (b : Bool)
    (h : (syncProject env pn project opts).2 = Except.ok b) : b = true := by
  rcases hg : guardStep env opts with ⟨g, gr⟩
  rcases hp : pullPhase env pn project opts with ⟨p, pr⟩
  rcases hc : hasLocalChanges env project with ⟨cc, ch⟩
  rcases hq : pushPhase env pn project opts with ⟨q, qr⟩
  simp only [syncProject, hg, hp, hc, hq] at h
  cases gr with
  | error e => simp at h
  | ok u =>
    cases pr with
    | error e => simp at h
    | ok u2 =>
      cases hpo : opts.pullOnly with
      | true => simp [hpo] at h; simp [h]
      | false =>
        cases ch with
        | false => simp [hpo] at h; simp [h]
        | true =>
          simp [hpo] at h
          have := pushPhase_ok_true env pn project opts b (by rw [hq]; exact h)
          exact this

theorem syncSubtree_ok_true (env : GitEnv) (registry : List (String × Project))
    (pn : String) (opts : SyncOptions) (b : Bool)
    (h : (syncSubtree env registry pn opts).2 = Except.ok b) : b = true := by
  unfold syncSubtree at h
  cases hl : lookupProject registry pn with
  | none => rw [hl] at h; simp at h
  | some project =>
    rw [hl] at h
    exact syncProject_ok_true env pn project opts b h

theorem splitDotAux_ne_nil (l : List Char) : splitDotAux l ≠ [] := by
  induction l with
  | nil => simp [splitDotAux]
  | cons c cs ih =>
    unfold splitDotAux
    cases h : splitDotAux cs with
    | nil => exact absurd h ih
    | cons seg segs => split <;> (first | (split <;> simp) | simp)

theorem splitDotAux_no_dot (l : List Char) (h : ∀ c ∈ l, c ≠ '.') :
    splitDotAux l = [l] := by
  induction l with
  | nil => rfl
  | cons c cs ih =>
    unfold splitDotAux
    rw [ih (fun x hx => h x (List.mem_cons_of_mem c hx))]
    simp [h c (List.mem_cons_self c cs)]

theorem splitDotAux_append_dot (l1 l2 : List Char) (h : ∀ c ∈ l1, c ≠ '.') :
    splitDotAux (l1 ++ '.' :: l2) = l1 :: splitDotAux l2 := by
  induction l1 with
  | nil =>
    show splitDotAux ('.' :: l2) = [] :: splitDotAux l2
    conv_lhs => rw [splitDotAux]
    cases hc : splitDotAux l2 with
    | nil => exact absurd hc (splitDotAux_ne_nil l2)
    | cons seg segs => simp
  | cons c cs ih =>
    show splitDotAux (c :: (cs ++ '.' :: l2)) = (c :: cs) :: splitDotAux l2
    conv_lhs => rw [splitDotAux]
    rw [ih (fun x hx => h x (List.mem_cons_of_mem c hx))]
    simp [h c (List.mem_cons_self c cs)]

theorem digitChar_toNat (d : Nat) (h : d < 10) : (Nat.digitChar d).toNat - 48 = d := by
  interval_cases d <;> decide

theorem digitChar_isDigit (d : Nat) (h : d < 10) : (Nat.digitChar d).isDigit = true := by
  interval_cases d <;> decide

theorem digitChar_ne_dot (d : Nat) (h : d < 10) : Nat.digitChar d ≠ '.' := by
  interval_cases d <;> decide

theorem toDigitsCore_append (fuel : Nat) : ∀ (n : Nat) (ds : List Char),
    Nat.toDigitsCore 10 fuel n ds = Nat.toDigitsCore 10 fuel n [] ++ ds := by
  induction fuel with
  | zero => intro n ds; simp [Nat.toDigitsCore]
  | succ fuel ih =>
    intro n ds
    unfold Nat.toDigitsCore
    by_cases h : n / 10 = 0
    · simp [h]
    · simp only [h, if_false]
      rw [ih (n / 10) (Nat.digitChar (n % 10) :: ds), ih (n / 10) [Nat.digitChar (n % 10)]]
      simp

theorem toDigitsCore_mem (fuel : Nat) : ∀ (n : Nat), ∀ c ∈ Nat.toDigitsCore 10 fuel n [],
    c.isDigit = true ∧ c ≠ '.' := by
  induction fuel with
  | zero => intro n c hc; simp [Nat.toDigitsCore] at hc
  | succ fuel ih =>
    intro n c hc
    unfold Nat.toDigitsCore at hc
    by_cases h : n / 10 = 0
    · simp [h] at hc
      subst hc
      exact ⟨digitChar_isDigit _ (Nat.mod_lt _ (by norm_num)),
        digitChar_ne_dot _ (Nat.mod_lt _ (by norm_num))⟩
    · simp only [h, if_false] at hc
      rw [toDigitsCore_append] at hc
      simp at hc
      rcases hc with hc | hc
      · exact ih (n / 10) c hc
      · subst hc
        exact ⟨digitChar_isDigit _ (Nat.mod_lt _ (by norm_num)),
          digitChar_ne_dot _ (Nat.mod_lt _ (by norm_num))⟩

theorem toDigitsCore_ne_nil (fuel n : Nat) (h : 0 < fuel) :
    Nat.toDigitsCore 10 fuel n [] ≠ [] := by
  cases fuel with
  | zero => omega
  | succ fuel =>
    unfold Nat.toDigitsCore
    by_cases hn : n / 10 = 0
    · simp [hn]
    · simp only [hn, if_false]
      rw [toDigitsCore_append]
      simp

theorem toDigitsCore_val (fuel : Nat) : ∀ n : Nat, n < 10 ^ fuel →
    digitsToNat (Nat.toDigitsCore 10 fuel n []) = n := by
  induction fuel with
  | zero =>
    intro n hn
    have : n = 0 := by simpa using hn
    subst this
    rfl
  | succ fuel ih =>
    intro n hn
    unfold Nat.toDigitsCore
    by_cases h : n / 10 = 0
    · have hlt : n < 10 := by omega
      simp only [h, if_true]
      show digitsToNat [Nat.digitChar (n % 10)] = n
      unfold digitsToNat
      simp [digitChar_toNat (n % 10) (Nat.mod_lt _ (by norm_num))]
      omega
    · simp only [h, if_false]
      rw [toDigitsCore_append]
      unfold digitsToNat
      rw [List.foldl_append]
      have hdiv : n / 10 < 10 ^ fuel := by
        rw [pow_succ] at hn
        omega
      have ihv := ih (n / 10) hdiv
      unfold digitsToNat at ihv
      simp only [List.foldl_cons, List.foldl_nil]
      rw [ihv, digitChar_toNat (n % 10) (Nat.mod_lt _ (by norm_num))]
      omega

theorem jsNumber_repr (n : Nat) : jsNumber (Nat.repr n) = some n := by
  unfold jsNumber
  have hne : (Nat.repr n).data ≠ [] :=
    toDigitsCore_ne_nil (n + 1) n (Nat.succ_pos n)
  have hdig : (Nat.repr n).data.all Char.isDigit = true := by
    rw [List.all_eq_true]
    intro c hc
    exact (toDigitsCore_mem (n + 1) n c hc).1
  have hlt : n < 10 ^ (n + 1) :=
    lt_of_lt_of_le (Nat.lt_pow_self (by norm_num) n)
      (Nat.pow_le_pow_right (by norm_num) (Nat.le_succ n))
  simp only [hdig, Bool.and_true, List.isEmpty_eq_true, hne, not_false_iff]
  rw [if_pos]
  · exact congrArg some (toDigitsCore_val (n + 1) n hlt)
  · simp [hne, hdig, List.isEmpty_eq_true]

theorem repr_no_dot (n : Nat) : ∀ c ∈ (Nat.repr n).data, c ≠ '.' :=
  fun c hc => (toDigitsCore_mem (n + 1) n c hc).2

theorem splitDot_repr3 (M m p : Nat) :
    splitDot (Nat.repr M ++ "." ++ Nat.repr m ++ "." ++ Nat.repr p) =
      [Nat.repr M, Nat.repr m, Nat.repr p] := by
  unfold splitDot
  have hdata : (Nat.repr M ++ "." ++ Nat.repr m ++ "." ++ Nat.repr p).data =
      (Nat.repr M).data ++ '.' :: ((Nat.repr m).data ++ '.' :: (Nat.repr p).data) := by
    simp [String.data_append]
  rw [hdata]
  rw [splitDotAux_append_dot _ _ (repr_no_dot M)]
  rw [splitDotAux_append_dot _ _ (repr_no_dot m)]
  rw [splitDotAux_no_dot _ (repr_no_dot p)]
  simp

/-- C1: when the subtree push is rejected and `force` is not set, `syncSubtree`
throws rather than overwriting remote history (the result is the push error
and no force push is ever issued); when `force` is set, the rejection is
handled by splitting to a disposable branch, force-pushing it, and deleting
the branch afterwards (the delete appears in the trace after the force push,
and the call succeeds). -/
theorem sync_push_rejection_safety (env : GitEnv) (pn : String) (project : Project)
    (m : String) (hm : env.pushResult = Except.error m) :
    (GitCmd.subtreePush project.path project.subtreeRemote ∈
        (syncProject env pn project ⟨false, false, false⟩).1.cmds →
      (syncProject env pn project ⟨false, false, false⟩).2 =
        Except.error (cmdFailed (pushCmdText project) m) ∧
      GitCmd.forcePush project.subtreeRemote ∉
        (syncProject env pn project ⟨false, false, false⟩).1.cmds) ∧
    (∀ a b d : String, env.forceSplitResult = Except.ok a →
      env.forcePushResult = Except.ok b → env.forceDeleteResult = Except.ok d →
      GitCmd.subtreePush project.path project.subtreeRemote ∈
        (syncProject env pn project ⟨false, false, true⟩).1.cmds →
      (syncProject env pn project ⟨false, false, true⟩).2 = Except.ok true ∧
      ∃ i j, i < j ∧
        (syncProject env pn project ⟨false, false, true⟩).1.cmds.get? i =
          some (GitCmd.forcePush project.subtreeRemote) ∧
        (syncProject env pn project ⟨false, false, true⟩).1.cmds.get? j =
          some GitCmd.forceBranchDelete) := by
  constructor
  · intro hreach
    obtain ⟨pre, hnp, hcmds, hres⟩ :=
      syncProject_push_reached env pn project ⟨false, false, false⟩ hreach
    obtain ⟨hc1, hc2⟩ := pushPhase_reject_no_force env pn project m false hm
    constructor
    · rw [hres, hc2]
    · rw [hcmds, hc1]
      intro hin
      rcases List.mem_append.mp hin with hin | hin
      · have := hnp _ hin
        simp [isPushCmd] at this
      · simp at hin
  · intro a b d ha hb hd hreach
    obtain ⟨pre, hnp, hcmds, hres⟩ :=
      syncProject_push_reached env pn project ⟨false, false, true⟩ hreach
    obtain ⟨hc1, hc2⟩ := pushPhase_reject_force env pn project m a b d false hm ha hb hd
    refine ⟨by rw [hres, hc2], pre.length + 2, pre.length + 3, by omega, ?_, ?_⟩
    · rw [hcmds, hc1, List.get?_append_right (by omega)]
      simp [Nat.add_sub_cancel_left]
    · rw [hcmds, hc1, List.get?_append_right (by omega)]
      simp [Nat.add_sub_cancel_left]

/-- Witness for C1 at a concrete oracle: local changes present, remote push
rejected; without force the call fails with the push error, with force it
succeeds. -/
theorem sync_push_rejection_safety_witness :
    (syncProject envC1W "mcpresso" projW ⟨false, false, false⟩).2 =
      Except.error (cmdFailed (pushCmdText projW) "rejected") ∧
    (syncProject envC1W "mcpresso" projW ⟨false, false, true⟩).2 = Except.ok true := by
  have h := sync_push_rejection_safety envC1W "mcpresso" projW "rejected" rfl
  exact ⟨(h.1 (by decide)).1, (h.2 "" "" "" rfl rfl rfl (by decide)).1⟩

/-- C2: for any oracle and any options with `pushOnly = false`, every
push-like command (normal or force push) issued by `syncSubtree`'s body is
preceded in the synchronous command trace by the squash subtree pull, so the
pull has been executed and has completed before any push is attempted. -/
theorem sync_pull_precedes_push (env : GitEnv) (pn : String) (project : Project)
    (po fo : Bool) :
    PullBeforePush (GitCmd.subtreePull project.path project.subtreeRemote)
      (syncProject env pn project ⟨po, false, fo⟩).1.cmds := by
  rcases hg : guardStep env ⟨po, false, fo⟩ with ⟨g, gr⟩
  have hgn : ∀ c ∈ g.cmds, isPushCmd c = false := by
    have := guardStep_no_push env ⟨po, false, fo⟩
    rw [hg] at this; exact this
  rcases hp : pullPhase env pn project ⟨po, false, fo⟩ with ⟨p, pr⟩
  have hpn : ∀ c ∈ p.cmds, isPushCmd c = false := by
    have := pullPhase_no_push env pn project ⟨po, false, fo⟩
    rw [hp] at this; exact this
  have hph : p.cmds.head? = some (GitCmd.subtreePull project.path project.subtreeRemote) := by
    have := pullPhase_head env pn project ⟨po, false, fo⟩ rfl
    rw [hp] at this; exact this
  have hplen : 0 < p.cmds.length := by
    have := pullPhase_nonempty env pn project ⟨po, false, fo⟩ rfl
    rw [hp] at this; exact this
  rcases hc : hasLocalChanges env project with ⟨cc, ch⟩
  have hcn : ∀ c ∈ cc.cmds, isPushCmd c = false := by
    have := hasLocalChanges_no_push env project
    rw [hc] at this; exact this
  cases gr with
  | error e =>
    simp only [syncProject, hg]
    apply pbp_of_no_push
    simpa using hgn
  | ok u =>
    cases pr with
    | error e =>
      simp only [syncProject, hg, hp]
      apply pbp_of_no_push
      intro c hcm
      simp at hcm
      rcases hcm with hcm | hcm
      · exact hgn c hcm
      · exact hpn c hcm
    | ok u2 =>
      cases po with
      | true =>
        simp only [syncProject, hg, hp]
        apply pbp_of_no_push
        intro c hcm
        simp at hcm
        rcases hcm with hcm | hcm
        · exact hgn c hcm
        · exact hpn c hcm
      | false =>
        cases ch with
        | false =>
          simp only [syncProject, hg, hp, hc]
          apply pbp_of_no_push
          intro c hcm
          simp at hcm
          rcases hcm with hcm | hcm | hcm
          · exact hgn c hcm
          · exact hpn c hcm
          · exact hcn c hcm
        | true =>
          rcases hq : pushPhase env pn project ⟨false, false, fo⟩ with ⟨q, qr⟩
          simp only [syncProject, hg, hp, hc, hq, SyncOut_append_cmds, SyncOut_log_cmds,
            List.nil_append]
          refine pbp_append _ ((g.cmds ++ p.cmds) ++ cc.cmds) q.cmds ?_ ⟨g.cmds.length, ?_⟩
          · intro c hcm
            rcases List.mem_append.mp hcm with hcm | hcm
            · rcases List.mem_append.mp hcm with hcm | hcm
              · exact hgn c hcm
              · exact hpn c hcm
            · exact hcn c hcm
          · rw [List.get?_append
              (by simp [Nat.lt_add_of_pos_right hplen] : g.cmds.length < (g.cmds ++ p.cmds).length)]
            rw [List.get?_append_right (Nat.le_refl _)]
            simp only [Nat.sub_self]
            rw [List.get?_zero]
            exact hph

/-- C3: in the no-change state (clean tree, pull up to date, no uncommitted
changes under the prefix, no split commits ahead of the remote) — the state a
second back-to-back sync observes — the call detects nothing to push, issues
no push-like command, reports the project as up to date, and returns success. -/
theorem sync_idempotent_no_change (pn : String) (project : Project) :
    (syncProject {} pn project {}).2 = Except.ok true ∧
    (∀ c ∈ (syncProject {} pn project {}).1.cmds, isPushCmd c = false) ∧
    ("✅ " ++ project.name ++ " is already up to date, no changes to push") ∈
      (syncProject {} pn project {}).1.logs := by
  have h1 : jsTruthyTrim (some (jsTrim "")) = false := by decide
  have h2 : jsTruthy (some (jsTrim "")) = false := by decide
  refine ⟨rfl, ?_, ?_⟩
  · have : (syncProject {} pn project {}).1.cmds =
        [GitCmd.statusRepo, GitCmd.subtreePull project.path project.subtreeRemote,
         GitCmd.statusPath project.path, GitCmd.remoteGrep project.name,
         GitCmd.remoteAdd project.name project.subtreeRemote, GitCmd.fetchTemp project.name,
         GitCmd.splitCheck project.path, GitCmd.logCheck project.name,
         GitCmd.branchDeleteTemp project.name, GitCmd.remoteRemoveTemp project.name] := rfl
    rw [this]
    intro c hc
    simp at hc
    rcases hc with rfl | rfl | rfl | rfl | rfl | rfl | rfl | rfl | rfl | rfl <;> rfl
  · simp [syncProject, guardStep, checkWorkingTreeClean, pullPhase, hasLocalChanges,
      splitCheckCore, runThrow, runNoThrow, SyncOut.log, SyncOut.cmd, h1, h2]

/-- C4: for every canonical semantic version built from numerals `M.m.p`,
`bumpVersion` resets and increments components as specified (`major` gives
`(M+1).0.0`, `minor` gives `M.(m+1).0`, `patch` gives `M.m.(p+1)`), and in
particular `1.4.9` bumps to `1.4.10`, `1.5.0`, and `2.0.0`. -/
theorem bumpVersion_semver (M m p : Nat) :
    bumpVersion (Nat.repr M ++ "." ++ Nat.repr m ++ "." ++ Nat.repr p) "major" =
      some (Nat.repr (M + 1) ++ ".0.0") ∧
    bumpVersion (Nat.repr M ++ "." ++ Nat.repr m ++ "." ++ Nat.repr p) "minor" =
      some (Nat.repr M ++ "." ++ Nat.repr (m + 1) ++ ".0") ∧
    bumpVersion (Nat.repr M ++ "." ++ Nat.repr m ++ "." ++ Nat.repr p) "patch" =
      some (Nat.repr M ++ "." ++ Nat.repr m ++ "." ++ Nat.repr (p + 1)) ∧
    bumpVersion "1.4.9" "patch" = some "1.4.10" ∧
    bumpVersion "1.4.9" "minor" = some "1.5.0" ∧
    bumpVersion "1.4.9" "major" = some "2.0.0" := by
  refine ⟨?_, ?_, ?_, by decide, by decide, by decide⟩ <;>
    (unfold bumpVersion; rw [splitDot_repr3]; simp [jsNumber_repr])

/-- C5: when the pull fails with a merge-conflict signature, the engine
performs no automatic resolution (no command after the pull), emits the
remediation instructions naming the local path (stage, commit with the fixed
message, re-run sync), and throws deterministically, for any `force` and
`pullOnly` options. -/
theorem sync_merge_conflict_manual (pn : String) (project : Project) (m : String)
    (po fo : Bool)
    (h : jsIncludes (cmdFailed (pullCmdText project) m) "merge conflict" = true) :
    (syncProject { pullResult := Except.error m } pn project ⟨po, false, fo⟩).2 =
      Except.error "Merge conflicts need to be resolved manually" ∧
    (∀ c ∈ (syncProject { pullResult := Except.error m } pn project ⟨po, false, fo⟩).1.cmds,
      c = GitCmd.statusRepo ∨ c = GitCmd.subtreePull project.path project.subtreeRemote) ∧
    ("📝 Please resolve conflicts in " ++ project.path ++ "/ and then run:") ∈
      (syncProject { pullResult := Except.error m } pn project ⟨po, false, fo⟩).1.logs ∧
    ("   git add " ++ project.path ++ "/") ∈
      (syncProject { pullResult := Except.error m } pn project ⟨po, false, fo⟩).1.logs ∧
    ("   git commit -m \"resolve: merge conflicts in " ++ project.name ++ "\"") ∈
      (syncProject { pullResult := Except.error m } pn project ⟨po, false, fo⟩).1.logs ∧
    ("   npm run sync:" ++ pn) ∈
      (syncProject { pullResult := Except.error m } pn project ⟨po, false, fo⟩).1.logs := by
  have h1 : jsTruthyTrim (some (jsTrim "")) = false := by decide
  cases fo <;>
    simp [syncProject, guardStep, checkWorkingTreeClean, pullPhase, runThrow, runNoThrow,
      SyncOut.log, SyncOut.cmd, h1, h]

/-- Witness for C5 at a concrete conflicting pull output. -/
theorem sync_merge_conflict_manual_witness :
    (syncProject envC5W "mcpresso" projW ⟨false, false, false⟩).2 =
      Except.error "Merge conflicts need to be resolved manually" :=
  (sync_merge_conflict_manual "mcpresso" projW "CONFLICT: merge conflict in src/index.ts"
    false false (by decide)).1

/-- C6: on a first-time sync where the pull reports "was never added" and the
plain subtree add fails on an occupied prefix, the engine backs the directory
up (the copy command precedes the removal in the trace), untracks it, commits
the removal, retries the add, and — the retry succeeding — the sync
completes successfully. -/
theorem sync_first_time_init_backup (pn : String) (project : Project) (m1 m2 : String)
    (h1 : jsIncludes (cmdFailed (pullCmdText project) m1) "merge conflict" = false)
    (h2 : jsIncludes (cmdFailed (pullCmdText project) m1) "was never added" = true)
    (h3 : jsIncludes (cmdFailed (addCmdText project) m2) prefixSig = true) :
    (syncProject { pullResult := Except.error m1, addResult := Except.error m2 }
        pn project {}).2 = Except.ok true ∧
    (syncProject { pullResult := Except.error m1, addResult := Except.error m2 }
        pn project {}).1.cmds =
      [GitCmd.statusRepo, GitCmd.subtreePull project.path project.subtreeRemote,
       GitCmd.subtreeAdd project.path project.subtreeRemote,
       GitCmd.mkdirBackup project.path, GitCmd.cpBackup project.path,
       GitCmd.gitRmCached project.path, GitCmd.rmRf project.path,
       GitCmd.commitPrep project.name,
       GitCmd.subtreeAdd project.path project.subtreeRemote,
       GitCmd.statusPath project.path, GitCmd.remoteGrep project.name,
       GitCmd.remoteAdd project.name project.subtreeRemote, GitCmd.fetchTemp project.name,
       GitCmd.splitCheck project.path, GitCmd.logCheck project.name,
       GitCmd.branchDeleteTemp project.name, GitCmd.remoteRemoveTemp project.name] ∧
    ("✅ Subtree initialized for " ++ project.name) ∈
      (syncProject { pullResult := Except.error m1, addResult := Except.error m2 }
        pn project {}).1.logs := by
  have hf : jsTruthyTrim (some (jsTrim "")) = false := by decide
  have ht : jsTruthy (some (jsTrim "")) = false := by decide
  refine ⟨?_, ?_, ?_⟩ <;>
    simp [syncProject, guardStep, checkWorkingTreeClean, pullPhase, hasLocalChanges,
      splitCheckCore, runThrow, runNoThrow, SyncOut.log, SyncOut.cmd, hf, ht, h1, h2, h3]

/-- Witness for C6 at concrete never-added and occupied-prefix messages. -/
theorem sync_first_time_init_backup_witness :
    (syncProject envC6W "mcpresso" projW {}).2 = Except.ok true :=
  (sync_first_time_init_backup "mcpresso" projW
    "fatal: the subtree packages/mcpresso was never added"
    "prefix \x27packages/mcpresso\x27 already exists."
    (by decide) (by decide) (by decide)).1

/-- C7: `syncAll` records one outcome per registered project in registry
order (so a failing project never aborts the batch), failed entries carry an
error message, the report partitions results into successful and failed, and
the returned flag is success exactly when every project succeeded. -/
theorem syncAll_bulk_isolation (envOf : String → GitEnv)
    (registry : List (String × Project)) (opts : SyncOptions) :
    (syncAll envOf registry opts).results.map SyncResult.project = registry.map Prod.fst ∧
    ((syncAll envOf registry opts).ok = true ↔
      ∀ r ∈ (syncAll envOf registry opts).results, r.success = true) ∧
    (∀ r ∈ (syncAll envOf registry opts).results, r.success = false →
      ∃ e, r.error = some e) ∧
    (syncAll envOf registry opts).failed =
      (syncAll envOf registry opts).results.filter (fun r => !r.success) ∧
    (syncAll envOf registry opts).successful =
      (syncAll envOf registry opts).results.filter (fun r => r.success) := by
  refine ⟨?_, ?_, ?_, rfl, rfl⟩
  · unfold syncAll
    simp only [List.map_map]
    apply List.map_congr_left
    intro pr hpr
    simp only [Function.comp_apply]
    rcases hs : syncSubtree (envOf pr.1) registry pr.1 opts with ⟨o, res⟩
    cases res <;> simp [hs]
  · unfold syncAll
    simp only []
    rw [beq_iff_eq, List.length_eq_zero, List.filter_eq_nil_iff]
    constructor
    · intro hall r hr
      have := hall r hr
      simpa using this
    · intro hall r hr
      simp [hall r hr]
  · intro r hr hf
    unfold syncAll at hr
    simp only [List.mem_map] at hr
    obtain ⟨pr, hpr, heq⟩ := hr
    rcases hs : syncSubtree (envOf pr.1) registry pr.1 opts with ⟨o, res⟩
    rw [hs] at heq
    cases res with
    | ok b =>
      exfalso
      have hb := syncSubtree_ok_true (envOf pr.1) registry pr.1 opts b (by rw [hs])
      rw [← heq] at hf
      simp at hf
      rw [hb] at hf
      simp at hf
    | error e =>
      rw [← heq]
      exact ⟨e, rfl⟩

/-- C8: a publish run started with a non-blank porcelain status fails at step
1: the only command issued is the status check (no pre-sync, no commit, no
push, no subtree sync, no npm publish) and the pipeline state — the
manifest's version field — is unchanged. -/
theorem publish_abort_on_dirty_tree (env : PubEnv) (st : PubState) (project : Project)
    (v s : String) (hs : env.statusRepo = Except.ok s) (hne : 0 < (jsTrim s).length) :
    (runPublish env st project v).1 = [PubCmd.statusCheck] ∧
    (runPublish env st project v).2.1 = st ∧
    ∃ e, (runPublish env st project v).2.2 = Except.error e := by
  unfold runPublish
  rw [hs]
  simp [hne]

/-- Witness for C8 at a concrete dirty status line. -/
theorem publish_abort_on_dirty_tree_witness :
    (runPublish { statusRepo := Except.ok " M packages/mcpresso/package.json" }
        ⟨"1.0.0"⟩ projW "1.0.1").1 = [PubCmd.statusCheck] ∧
    (runPublish { statusRepo := Except.ok " M packages/mcpresso/package.json" }
        ⟨"1.0.0"⟩ projW "1.0.1").2.1 = (⟨"1.0.0"⟩ : PubState) := by
  have h := publish_abort_on_dirty_tree
    { statusRepo := Except.ok " M packages/mcpresso/package.json" }
    ⟨"1.0.0"⟩ projW "1.0.1" " M packages/mcpresso/package.json" rfl (by decide)
  exact ⟨h.1, h.2.1⟩

/-- C9: if change detection itself fails (here: the temporary-remote fetch
throws) after no uncommitted changes were found, the error is swallowed:
cleanup runs, `hasLocalChanges` answers `false`, and the sync reports the
project as up to date and succeeds without issuing any push. -/
theorem sync_detection_failure_swallowed (pn : String) (project : Project) (m : String) :
    (hasLocalChanges { fetchResult := Except.error m } project).2 = false ∧
    (syncProject { fetchResult := Except.error m } pn project {}).2 = Except.ok true ∧
    (syncProject { fetchResult := Except.error m } pn project {}).1.cmds =
      [GitCmd.statusRepo, GitCmd.subtreePull project.path project.subtreeRemote,
       GitCmd.statusPath project.path, GitCmd.remoteGrep project.name,
       GitCmd.remoteAdd project.name project.subtreeRemote, GitCmd.fetchTemp project.name,
       GitCmd.branchDeleteTemp project.name, GitCmd.remoteRemoveTemp project.name] ∧
    ("✅ " ++ project.name ++ " is already up to date, no changes to push") ∈
      (syncProject { fetchResult := Except.error m } pn project {}).1.logs := by
  have hf : jsTruthyTrim (some (jsTrim "")) = false := by decide
  have ht : jsTruthy (some (jsTrim "")) = false := by decide
  refine ⟨rfl, rfl, rfl, ?_⟩
  simp [syncProject, guardStep, checkWorkingTreeClean, pullPhase, hasLocalChanges,
    splitCheckCore, runThrow, runNoThrow, SyncOut.log, SyncOut.cmd, hf, ht]

/-- C10: `syncSubtree` never returns `false`: every run either throws (an
`Except.error`) or returns the boolean `true`, so its return value carries no
distinction between the success modes. -/
theorem syncSubtree_returns_true_or_throws (env : GitEnv)
    (registry : List (String × Project)) (pn : String) (opts : SyncOptions) :
    (syncSubtree env registry pn opts).2 ≠ Except.ok false := by
  intro hcon
  have := syncSubtree_ok_true env registry pn opts false hcon
  simp at this
